import Mathlib

/-!
Verification of the offline cache gateway implemented by
`src/frontend/service-worker.js` (cache lifecycle, request routing, fetch
strategies and the background upload queue), as a shallow embedding.

Requests are identified by their URL string; an HTTP response carries a
status, a status text and a body.  A live `fetch` either resolves with a
response or rejects with a network error.  Cache partitions are association
lists from URL to the last stored response.
-/

namespace SW

/-- An HTTP response as seen by the service worker: status code, status
text and body. -/
structure Response where
  status : Nat
  statusText : String
  body : String
deriving DecidableEq

/-- The `ok` flag of a response, as in the Fetch API: true exactly when the
status is in the 200–299 range. -/
def Response.ok (r : Response) : Bool :=
  200 ≤ r.status && r.status ≤ 299

/-- Outcome of a live `fetch` call: the promise either resolves with a
response (of any status) or rejects with a network error. -/
inductive FetchResult where
  | resolved (r : Response)
  | netError
deriving DecidableEq

/-- A fetch attempt counts as a confirmed success when it resolved and the
response's `ok` flag is set (`response.ok` in the source). -/
def FetchResult.succeeded : FetchResult → Bool
  | .resolved r => r.ok
  | .netError => false

/-- A fetch attempt that resolved but with a non-ok HTTP response: the
promise did not reject, yet `response.ok` is false. -/
def FetchResult.httpFailure : FetchResult → Bool
  | .resolved r => !r.ok
  | .netError => false

/-- A cache partition: a mapping from request URL to the last stored
response, modelled as an association list. -/
abbrev Cache := List (String × Response)

/-- Look a request up in a partition (`cache.match(request)`). -/
def cacheMatch : Cache → String → Option Response
  | [], _ => none
  | (k, v) :: rest, req => if k == req then some v else cacheMatch rest req

/-- Store a response for a request in a partition (`cache.put`), replacing
any previous entry for the same request. -/
def cachePut (c : Cache) (k : String) (v : Response) : Cache :=
  (k, v) :: c.filter (fun e => !(e.1 == k))

/-- Partition names, from the constants at the top of the source file. -/
def CACHE_NAME : String := "secureai-v1.0.0"

/-- Name of the static partition (`STATIC_CACHE` in the source). -/
def STATIC_CACHE : String := "secureai-static-v1.0.0"

/-- Name of the dynamic partition (`DYNAMIC_CACHE` in the source). -/
def DYNAMIC_CACHE : String := "secureai-dynamic-v1.0.0"

/-- The static asset manifest (`STATIC_ASSETS` in the source). -/
def STATIC_ASSETS : List String :=
  ["/",
   "/index.html",
   "/css/style.css",
   "/js/main.js",
   "/js/dashboard.js",
   "/js/charts.js",
   "/js/voice-commands.js",
   "/manifest.json",
   "https://fonts.googleapis.com/css2?family=Inter:wght@300;400;500;600;700&display=swap",
   "https://cdnjs.cloudflare.com/ajax/libs/font-awesome/6.4.0/css/all.min.css",
   "https://cdn.jsdelivr.net/npm/chart.js@4.4.0/dist/chart.umd.js"]

/-- Fetch every asset of a manifest; `none` as soon as any fetch rejects or
resolves non-ok.  This is the fetching half of `cache.addAll`, which is an
atomic batch operation: either every listed resource is retrieved or the
whole call rejects and nothing is stored. -/
def fetchAllAssets (fetchFn : String → FetchResult) : List String → Option (List (String × Response))
  | [] => some []
  | a :: rest =>
    match fetchFn a with
    | .resolved r =>
        if r.ok then (fetchAllAssets fetchFn rest).map (fun l => (a, r) :: l)
        else none
    | .netError => none

/-- The atomic `cache.addAll(urls)` batch: on success every fetched response
is stored, on any failure the cache is untouched and the call rejects. -/
def cacheAddAll (fetchFn : String → FetchResult) (c : Cache) (assets : List String) : Option Cache :=
  (fetchAllAssets fetchFn assets).map
    (fun entries => entries.foldl (fun acc e => cachePut acc e.1 e.2) c)

/-- Observable outcome of one run of the `install` listener: the contents of
the static partition afterwards, whether `self.skipWaiting()` was reached,
and whether the promise handed to `event.waitUntil` rejected (i.e. whether
an install failure was signalled to the runtime). -/
structure InstallOutcome where
  staticCache : Cache
  skipWaitingCalled : Bool
  installFailed : Bool
deriving DecidableEq

/-- The `install` listener: open the static partition, `addAll` the manifest,
then `skipWaiting`.  The trailing `.catch` in the source logs the error and
swallows it, so on any `addAll` failure the partition is left untouched,
`skipWaiting` is not reached, and the install event still completes without
signalling failure (`installFailed := false` on both paths). -/
def installHandler (fetchFn : String → FetchResult) (staticCache : Cache) : InstallOutcome :=
  match cacheAddAll fetchFn staticCache STATIC_ASSETS with
  | some c => ⟨c, true, false⟩
  | none => ⟨staticCache, false, false⟩

/-- A fetch environment in which every request fails with a network error. -/
def failFetch : String → FetchResult := fun _ => .netError

/-- Predicate of the source's activate-time filter: a cache name survives
exactly when it equals the current static or dynamic partition name; every
other name is deleted (`name !== STATIC_CACHE && name !== DYNAMIC_CACHE`). -/
def oldCache (n : String) : Bool :=
  !(n == STATIC_CACHE) && !(n == DYNAMIC_CACHE)

/-- Observable outcome of one run of the `activate` listener: the partition
names that remain, the names that were deleted, and whether
`clients.claim()` ran. -/
structure ActivateOutcome where
  remaining : List String
  deleted : List String
  clientsClaimed : Bool
deriving DecidableEq

/-- The `activate` listener: enumerate all cache names, delete every one
that differs from both current partition names, then claim clients. -/
def activateHandler (cacheNames : List String) : ActivateOutcome :=
  ⟨cacheNames.filter (fun n => !(oldCache n)),
   cacheNames.filter oldCache,
   true⟩

theorem fetchAllAssets_eq_none (fetchFn : String → FetchResult) :
    ∀ assets : List String, ∀ a ∈ assets, (fetchFn a).succeeded = false →
      fetchAllAssets fetchFn assets = none := by
  intro assets
  induction assets with
  | nil => intro a ha; simp at ha
  | cons b rest ih =>
    intro a ha hfail
    rcases List.mem_cons.mp ha with h | h
    · subst h
      cases htr : fetchFn a with
      | netError => simp [fetchAllAssets, htr]
      | resolved r =>
        have hok : r.ok = false := by
          simpa [FetchResult.succeeded, htr] using hfail
        simp [fetchAllAssets, htr, hok]
    · cases htr : fetchFn b with
      | netError => simp [fetchAllAssets, htr]
      | resolved r =>
        cases hok : r.ok with
        | false => simp [fetchAllAssets, htr, hok]
        | true => simp [fetchAllAssets, htr, hok, ih a h hfail]

/-- C1 counterexample: in a fetch environment where every asset fetch fails
(a network error on each manifest entry), the install listener still
completes without signalling failure — the `.catch` swallows the error, so
no `InstallFailure` is raised, refuting the claim that a failed asset fetch
fails the entire install operation. -/
theorem C1_counterexample :
    (∃ a ∈ STATIC_ASSETS, (failFetch a).succeeded = false)
    ∧ (installHandler failFetch []).installFailed = false := by
  refine ⟨⟨"/", ?_, rfl⟩, rfl⟩
  simp [STATIC_ASSETS]

/-- C1 (amended): if fetching any single manifest asset fails during
install(), the static partition is left exactly as it was (the `addAll`
batch is atomic, so no partial contents are ever promoted) and
`skipWaiting` is not reached — but the error is caught and logged, so the
install event itself completes without signalling an install failure. -/
theorem C1_install_amended (fetchFn : String → FetchResult) (c : Cache)
    (h : ∃ a ∈ STATIC_ASSETS, (fetchFn a).succeeded = false) :
    (installHandler fetchFn c).staticCache = c
    ∧ (installHandler fetchFn c).skipWaitingCalled = false
    ∧ (installHandler fetchFn c).installFailed = false := by
  obtain ⟨a, ha, hfail⟩ := h
  have hnone := fetchAllAssets_eq_none fetchFn STATIC_ASSETS a ha hfail
  simp [installHandler, cacheAddAll, hnone]

/-- C1 witness: the amended install theorem applied to the all-failing fetch
environment and an initially empty static partition. -/
theorem C1_install_amended_witness :
    (∃ a ∈ STATIC_ASSETS, (failFetch a).succeeded = false)
    ∧ ((installHandler failFetch []).staticCache = []
       ∧ (installHandler failFetch []).skipWaitingCalled = false
       ∧ (installHandler failFetch []).installFailed = false) :=
  ⟨⟨"/", by simp [STATIC_ASSETS], rfl⟩,
   C1_install_amended failFetch [] ⟨"/", by simp [STATIC_ASSETS], rfl⟩⟩

theorem filter_after_neg_filter (p : String → Bool) (l : List String) :
    (l.filter (fun a => !(p a))).filter p = [] := by
  induction l with
  | nil => rfl
  | cons a l ih =>
    by_cases h : p a = true
    · simp [List.filter_cons, h, ih]
    · simp only [Bool.not_eq_true] at h
      simp [List.filter_cons, h, ih]

theorem filter_neg_filter_self (p : String → Bool) (l : List String) :
    (l.filter (fun a => !(p a))).filter (fun a => !(p a)) = l.filter (fun a => !(p a)) := by
  induction l with
  | nil => rfl
  | cons a l ih =>
    by_cases h : p a = true
    · simp [List.filter_cons, h, ih]
    · simp only [Bool.not_eq_true] at h
      simp [List.filter_cons, h, ih]

/-- C7: activate() deletes exactly the partitions whose name differs from
both the current static partition name and the current dynamic partition
name: a name is in the deleted list iff it was present and matches neither
current name; in particular a partition matching either current name is
never deleted. -/
theorem C7_activate_deletes_exactly_old (names : List String) (n : String) :
    n ∈ (activateHandler names).deleted ↔
      n ∈ names ∧ n ≠ STATIC_CACHE ∧ n ≠ DYNAMIC_CACHE := by
  simp [activateHandler, oldCache, List.mem_filter]

/-- C8: running activate() twice in a row with no new partition versions is
idempotent — the second run deletes nothing and leaves the surviving
partition names unchanged (and, the handler being total, raises no
errors). -/
theorem C8_activate_idempotent (names : List String) :
    (activateHandler (activateHandler names).remaining).deleted = []
    ∧ (activateHandler (activateHandler names).remaining).remaining
        = (activateHandler names).remaining := by
  refine ⟨?_, ?_⟩
  · exact filter_after_neg_filter oldCache names
  · exact filter_neg_filter_self oldCache names

/-- A URL as decomposed by `new URL(request.url)`: the full serialized URL
(`href`), its origin, and its host component.  The source's router inspects
only `origin` and `href`; `host` is carried so that the spec's host-based
allow-list reading can be stated alongside. -/
structure Url where
  href : String
  origin : String
  host : String
deriving DecidableEq

/-- Check whether the first character list is a prefix of the second. -/
def charsPrefix : List Char → List Char → Bool
  | [], _ => true
  | _ :: _, [] => false
  | a :: as, b :: bs => a == b && charsPrefix as bs

/-- Check whether the first character list occurs contiguously anywhere in
the second. -/
def charsInfix (needle : List Char) : List Char → Bool
  | [] => charsPrefix needle []
  | b :: bs => charsPrefix needle (b :: bs) || charsInfix needle bs

/-- JS `String.prototype.includes`: substring containment. -/
def strIncludes (s sub : String) : Bool :=
  charsInfix sub.toList s.toList

/-- Where the fetch listener sends a request: untouched pass-through to the
default network handling, or one of the two strategies. -/
inductive RouteDecision where
  | passThrough
  | networkFirstRoute
  | cacheFirstRoute
deriving DecidableEq

/-- The `fetch` listener's routing logic: return early (pass through) when
the request is cross-origin and its URL string contains neither
`cdnjs.cloudflare.com` nor `fonts.googleapis.com`; otherwise respond with
networkFirst when the URL contains `/api/` and with cacheFirst otherwise. -/
def fetchListener (locOrigin : String) (u : Url) : RouteDecision :=
  if !(u.origin == locOrigin) && !(strIncludes u.href "cdnjs.cloudflare.com")
      && !(strIncludes u.href "fonts.googleapis.com") then
    .passThrough
  else if strIncludes u.href "/api/" then
    .networkFirstRoute
  else
    .cacheFirstRoute

/-- Spec-side definition for the refinement comparison in C9: the spec's
allow-list is an explicit list of two trusted third-party asset hosts, so a
request matches it when the URL's host component is one of those two host
names. -/
def specHostAllowListed (u : Url) : Bool :=
  u.host == "cdnjs.cloudflare.com" || u.host == "fonts.googleapis.com"

/-- The origin the dashboard is served from, for concrete routing inputs. -/
def appOrigin : String := "https://app.example"

/-- A cross-origin request whose host is not on the allow-list but whose URL
string happens to contain an allow-listed host name in its path. -/
def evilUrl : Url :=
  { href := "https://evil.example/cdnjs.cloudflare.com/lib.js"
    origin := "https://evil.example"
    host := "evil.example" }

/-- C9 counterexample: a cross-origin request whose host matches neither
allow-listed host is nevertheless handled (not passed through), because the
router tests substring containment on the whole URL string rather than the
host component. -/
theorem C9_counterexample :
    evilUrl.origin ≠ appOrigin
    ∧ specHostAllowListed evilUrl = false
    ∧ fetchListener appOrigin evilUrl ≠ RouteDecision.passThrough := by
  refine ⟨by decide, by decide, by decide⟩

/-- C9 (amended): the router passes a request through untouched exactly when
it is cross-origin and its full URL string contains neither allow-listed
host name as a substring; every other request is handled, dispatched to
network-first exactly when its URL contains the API marker segment `/api/`
and to cache-first otherwise. -/
theorem C9_router_amended (locOrigin : String) (u : Url) :
    (fetchListener locOrigin u = RouteDecision.passThrough ↔
      (u.origin ≠ locOrigin ∧ strIncludes u.href "cdnjs.cloudflare.com" = false
        ∧ strIncludes u.href "fonts.googleapis.com" = false))
    ∧ (fetchListener locOrigin u = RouteDecision.networkFirstRoute ↔
      ((u.origin = locOrigin ∨ strIncludes u.href "cdnjs.cloudflare.com" = true
         ∨ strIncludes u.href "fonts.googleapis.com" = true)
        ∧ strIncludes u.href "/api/" = true))
    ∧ (fetchListener locOrigin u = RouteDecision.cacheFirstRoute ↔
      ((u.origin = locOrigin ∨ strIncludes u.href "cdnjs.cloudflare.com" = true
         ∨ strIncludes u.href "fonts.googleapis.com" = true)
        ∧ strIncludes u.href "/api/" = false)) := by
  cases h1 : u.origin == locOrigin <;>
    cases h2 : strIncludes u.href "cdnjs.cloudflare.com" <;>
      cases h3 : strIncludes u.href "fonts.googleapis.com" <;>
        cases h4 : strIncludes u.href "/api/" <;>
          simp_all [fetchListener, beq_iff_eq]

/-- The two cache partitions the strategies touch: the static partition
(read by cacheFirst, seeded at install) and the dynamic partition (written
by both strategies, read as fallback by networkFirst). -/
structure Partitions where
  staticPart : Cache
  dynamicPart : Cache
deriving DecidableEq

/-- Observable outcome of a cacheFirst invocation: the response handed to
the caller (cacheFirst always returns a response — its catch block converts
every network failure into a substitute), the partitions afterwards, and
how many live fetches were performed. -/
structure StrategyOutcome where
  response : Response
  parts : Partitions
  fetchCount : Nat
deriving DecidableEq

/-- The synthesized "service unavailable" response built in cacheFirst's
catch block. -/
def offlineFallback : Response :=
  { status := 503
    statusText := "Service Unavailable"
    body := "Offline - Please check your connection" }

/-- The cacheFirst strategy: look the request up in the static partition and
return a hit at once; on a miss perform a live fetch, mirroring an ok
response into the dynamic partition; on a network failure serve
`/offline.html` from the static partition if present and the synthesized
503 response otherwise. -/
def cacheFirst (fetchFn : String → FetchResult) (p : Partitions) (request : String) :
    StrategyOutcome :=
  match cacheMatch p.staticPart request with
  | some cached => ⟨cached, p, 0⟩
  | none =>
    match fetchFn request with
    | .resolved resp =>
        if resp.ok then
          ⟨resp, { p with dynamicPart := cachePut p.dynamicPart request resp }, 1⟩
        else ⟨resp, p, 1⟩
    | .netError =>
        match cacheMatch p.staticPart "/offline.html" with
        | some offlinePage => ⟨offlinePage, p, 1⟩
        | none => ⟨offlineFallback, p, 1⟩

/-- Observable outcome of a networkFirst invocation: the response handed to
the caller (`none` when the network error was rethrown to the caller), the
partitions afterwards, and how many live fetches were performed. -/
structure NetworkOutcome where
  result : Option Response
  parts : Partitions
  fetchCount : Nat
deriving DecidableEq

/-- The networkFirst strategy: always fetch live first, mirroring an ok
response into the dynamic partition before returning it; when the fetch
rejects, return the dynamic partition's copy if one exists and otherwise
rethrow the error to the caller. -/
def networkFirst (fetchFn : String → FetchResult) (p : Partitions) (request : String) :
    NetworkOutcome :=
  match fetchFn request with
  | .resolved resp =>
      if resp.ok then
        ⟨some resp, { p with dynamicPart := cachePut p.dynamicPart request resp }, 1⟩
      else ⟨some resp, p, 1⟩
  | .netError =>
      match cacheMatch p.dynamicPart request with
      | some cached => ⟨some cached, p, 1⟩
      | none => ⟨none, p, 1⟩

/-- C4: for every API request handled by networkFirst, a live fetch is
always attempted (exactly one fetch per invocation); when it resolves ok
its result is returned — whatever the dynamic partition holds — and is
mirrored into the dynamic partition; when it rejects, the last mirrored
copy is returned if one exists and otherwise the failure is propagated to
the caller. -/
theorem C4_networkFirst_spec (fetchFn : String → FetchResult) (p : Partitions) (req : String) :
    (networkFirst fetchFn p req).fetchCount = 1
    ∧ (∀ r, fetchFn req = .resolved r → r.ok = true →
        (networkFirst fetchFn p req).result = some r
        ∧ (networkFirst fetchFn p req).parts.dynamicPart = cachePut p.dynamicPart req r)
    ∧ (fetchFn req = .netError →
        (∀ c, cacheMatch p.dynamicPart req = some c →
          (networkFirst fetchFn p req).result = some c)
        ∧ (cacheMatch p.dynamicPart req = none →
          (networkFirst fetchFn p req).result = none)) := by
  refine ⟨?_, ?_, ?_⟩
  · cases h : fetchFn req with
    | resolved r => cases hok : r.ok <;> simp [networkFirst, h, hok]
    | netError => cases hc : cacheMatch p.dynamicPart req <;> simp [networkFirst, h, hc]
  · intro r hr hok
    simp [networkFirst, hr, hok]
  · intro hne
    refine ⟨?_, ?_⟩
    · intro c hc
      simp [networkFirst, hne, hc]
    · intro hc
      simp [networkFirst, hne, hc]

/-- A pair of empty partitions, for concrete strategy inputs. -/
def emptyParts : Partitions := ⟨[], []⟩

/-- C4 witness: the networkFirst theorem instantiated at the all-failing
fetch environment, empty partitions and a concrete API request. -/
theorem C4_networkFirst_spec_witness :
    (networkFirst failFetch emptyParts "/api/alerts").fetchCount = 1
    ∧ (∀ r, failFetch "/api/alerts" = FetchResult.resolved r → r.ok = true →
        (networkFirst failFetch emptyParts "/api/alerts").result = some r
        ∧ (networkFirst failFetch emptyParts "/api/alerts").parts.dynamicPart
            = cachePut emptyParts.dynamicPart "/api/alerts" r)
    ∧ (failFetch "/api/alerts" = FetchResult.netError →
        (∀ c, cacheMatch emptyParts.dynamicPart "/api/alerts" = some c →
          (networkFirst failFetch emptyParts "/api/alerts").result = some c)
        ∧ (cacheMatch emptyParts.dynamicPart "/api/alerts" = none →
          (networkFirst failFetch emptyParts "/api/alerts").result = none)) :=
  C4_networkFirst_spec failFetch emptyParts "/api/alerts"

/-- C5: for every request handled by cacheFirst, a hit in the static
partition is returned immediately: the cached response is the caller's
response, no live fetch is performed and the partitions are untouched. -/
theorem C5_cacheFirst_hit (fetchFn : String → FetchResult) (p : Partitions) (req : String)
    (r : Response) (h : cacheMatch p.staticPart req = some r) :
    (cacheFirst fetchFn p req).response = r
    ∧ (cacheFirst fetchFn p req).fetchCount = 0
    ∧ (cacheFirst fetchFn p req).parts = p := by
  simp [cacheFirst, h]

/-- A concrete 200 response, for strategy witnesses. -/
def pageResp : Response := ⟨200, "OK", "dashboard shell"⟩

/-- Partitions whose static side holds one seeded asset. -/
def seededParts : Partitions := ⟨[("/index.html", pageResp)], []⟩

/-- C5 witness: the cache-hit theorem at a seeded static partition with an
all-failing network: the hit is served with zero fetches. -/
theorem C5_cacheFirst_hit_witness :
    cacheMatch seededParts.staticPart "/index.html" = some pageResp
    ∧ ((cacheFirst failFetch seededParts "/index.html").response = pageResp
       ∧ (cacheFirst failFetch seededParts "/index.html").fetchCount = 0
       ∧ (cacheFirst failFetch seededParts "/index.html").parts = seededParts) :=
  ⟨rfl, C5_cacheFirst_hit failFetch seededParts "/index.html" pageResp rfl⟩

/-- C6: for every cacheFirst request that misses the static partition and
whose live fetch rejects, the strategy serves the `/offline.html` entry of
the static partition when present and otherwise the synthesized response
with status 503; in either case a substitute response is returned, never
the raw network error. -/
theorem C6_cacheFirst_offline (fetchFn : String → FetchResult) (p : Partitions) (req : String)
    (hmiss : cacheMatch p.staticPart req = none)
    (hfail : fetchFn req = FetchResult.netError) :
    (∀ pg, cacheMatch p.staticPart "/offline.html" = some pg →
      (cacheFirst fetchFn p req).response = pg)
    ∧ (cacheMatch p.staticPart "/offline.html" = none →
      (cacheFirst fetchFn p req).response = offlineFallback
      ∧ (cacheFirst fetchFn p req).response.status = 503) := by
  refine ⟨?_, ?_⟩
  · intro pg hpg
    simp [cacheFirst, hmiss, hfail, hpg]
  · intro hnone
    simp [cacheFirst, hmiss, hfail, hnone, offlineFallback]

/-- C6 witness: the offline-fallback theorem at empty partitions and the
all-failing fetch environment: the synthesized 503 response is served. -/
theorem C6_cacheFirst_offline_witness :
    (cacheMatch emptyParts.staticPart "/missing.css" = none
     ∧ failFetch "/missing.css" = FetchResult.netError)
    ∧ ((∀ pg, cacheMatch emptyParts.staticPart "/offline.html" = some pg →
         (cacheFirst failFetch emptyParts "/missing.css").response = pg)
       ∧ (cacheMatch emptyParts.staticPart "/offline.html" = none →
         (cacheFirst failFetch emptyParts "/missing.css").response = offlineFallback
         ∧ (cacheFirst failFetch emptyParts "/missing.css").response.status = 503)) :=
  ⟨⟨rfl, rfl⟩, C6_cacheFirst_offline failFetch emptyParts "/missing.css" rfl rfl⟩

theorem cacheFirst_staticPart_unchanged (fetchFn : String → FetchResult) (p : Partitions)
    (req : String) :
    (cacheFirst fetchFn p req).parts.staticPart = p.staticPart := by
  cases hm : cacheMatch p.staticPart req with
  | some r => simp [cacheFirst, hm]
  | none =>
    cases hf : fetchFn req with
    | resolved r => cases hok : r.ok <;> simp [cacheFirst, hm, hf, hok]
    | netError =>
      cases hoff : cacheMatch p.staticPart "/offline.html" <;> simp [cacheFirst, hm, hf, hoff]

theorem cacheFirst_miss_fetchCount (fetchFn : String → FetchResult) (p : Partitions)
    (req : String) (h : cacheMatch p.staticPart req = none) :
    (cacheFirst fetchFn p req).fetchCount = 1 := by
  cases hf : fetchFn req with
  | resolved r => cases hok : r.ok <;> simp [cacheFirst, h, hf, hok]
  | netError =>
    cases hoff : cacheMatch p.staticPart "/offline.html" <;> simp [cacheFirst, h, hf, hoff]

theorem cacheFirst_response_ignores_dynamic (fetchFn : String → FetchResult) (s d1 d2 : Cache)
    (req : String) :
    (cacheFirst fetchFn ⟨s, d1⟩ req).response = (cacheFirst fetchFn ⟨s, d2⟩ req).response := by
  cases hm : cacheMatch s req with
  | some r => simp [cacheFirst, hm]
  | none =>
    cases hf : fetchFn req with
    | resolved r => cases hok : r.ok <;> simp [cacheFirst, hm, hf, hok]
    | netError =>
      cases hoff : cacheMatch s "/offline.html" <;> simp [cacheFirst, hm, hf, hoff]

/-- C10: cacheFirst reads only the static partition.  For a request absent
from the static partition a live fetch is performed, the response does not
depend on the dynamic partition's contents (so a copy stored there is never
served), the static partition is left unchanged — and hence a repeat of the
same request through cacheFirst performs a live fetch again. -/
theorem C10_cacheFirst_ignores_dynamic (fetchFn : String → FetchResult) (s d1 d2 : Cache)
    (req : String) (h : cacheMatch s req = none) :
    (cacheFirst fetchFn ⟨s, d1⟩ req).fetchCount = 1
    ∧ (cacheFirst fetchFn ⟨s, d1⟩ req).response = (cacheFirst fetchFn ⟨s, d2⟩ req).response
    ∧ (cacheFirst fetchFn ⟨s, d1⟩ req).parts.staticPart = s
    ∧ (cacheFirst fetchFn (cacheFirst fetchFn ⟨s, d1⟩ req).parts req).fetchCount = 1 := by
  refine ⟨cacheFirst_miss_fetchCount fetchFn ⟨s, d1⟩ req h,
          cacheFirst_response_ignores_dynamic fetchFn s d1 d2 req,
          cacheFirst_staticPart_unchanged fetchFn ⟨s, d1⟩ req, ?_⟩
  apply cacheFirst_miss_fetchCount
  rw [cacheFirst_staticPart_unchanged]
  exact h

/-- A fetch environment that always resolves with the concrete 200 page. -/
def okFetch : String → FetchResult := fun _ => FetchResult.resolved pageResp

/-- C10 witness: the dynamic-partition-blindness theorem at an empty static
partition, a dynamic partition already holding the request, and a network
that answers: the dynamic copy is ignored and both invocations fetch. -/
theorem C10_cacheFirst_ignores_dynamic_witness :
    cacheMatch [] "/app.js" = none
    ∧ ((cacheFirst okFetch ⟨[], [("/app.js", pageResp)]⟩ "/app.js").fetchCount = 1
       ∧ (cacheFirst okFetch ⟨[], [("/app.js", pageResp)]⟩ "/app.js").response
           = (cacheFirst okFetch ⟨[], []⟩ "/app.js").response
       ∧ (cacheFirst okFetch ⟨[], [("/app.js", pageResp)]⟩ "/app.js").parts.staticPart = []
       ∧ (cacheFirst okFetch
            (cacheFirst okFetch ⟨[], [("/app.js", pageResp)]⟩ "/app.js").parts
            "/app.js").fetchCount = 1) :=
  ⟨rfl, C10_cacheFirst_ignores_dynamic okFetch [] [("/app.js", pageResp)] [] "/app.js" rfl⟩

/-- A pending upload record from the durable `uploads` store: an
auto-assigned identifier (the IndexedDB key, hence unique) and the file
payload. -/
structure Upload where
  id : Nat
  file : String
deriving DecidableEq

/-- Delete the record with the given identifier from the durable store
(`removePendingUpload` over the `uploads` object store). -/
def removePendingUpload (store : List Upload) (uid : Nat) : List Upload :=
  store.filter (fun u => !(u.id == uid))

/-- Observable outcome of one drain pass: the durable store afterwards and
the records for which a transfer attempt was actually made. -/
structure DrainOutcome where
  store : List Upload
  attempted : List Upload
deriving DecidableEq

/-- The body of `uploadPendingVideos`' loop over the snapshot of pending
records: each record is POSTed; on an ok response the record is removed and
the loop continues; on a non-ok response the record is kept and the loop
continues; a rejected fetch throws, which the function-level try/catch
catches, abandoning the rest of the pass. -/
def drainLoop (transfer : Upload → FetchResult) : List Upload → List Upload → DrainOutcome
  | store, [] => ⟨store, []⟩
  | store, u :: rest =>
    match transfer u with
    | .resolved r =>
        ⟨(drainLoop transfer (if r.ok then removePendingUpload store u.id else store) rest).store,
         u :: (drainLoop transfer
                 (if r.ok then removePendingUpload store u.id else store) rest).attempted⟩
    | .netError => ⟨store, [u]⟩

/-- One run of `uploadPendingVideos`: read the pending records (a snapshot
of the whole store) and drain them sequentially. -/
def uploadPendingVideos (transfer : Upload → FetchResult) (store : List Upload) : DrainOutcome :=
  drainLoop transfer store store

/-- Identifiers of the records the pass removes: those whose transfer
resolved ok, up to (and excluding) the first rejected fetch. -/
def deliveredIds (transfer : Upload → FetchResult) : List Upload → List Nat
  | [] => []
  | u :: rest =>
    match transfer u with
    | .resolved r =>
        if r.ok then u.id :: deliveredIds transfer rest else deliveredIds transfer rest
    | .netError => []

/-- The records the pass makes a transfer attempt for: everything up to and
including the first record whose fetch rejects. -/
def attemptedList (transfer : Upload → FetchResult) : List Upload → List Upload
  | [] => []
  | u :: rest =>
    match transfer u with
    | .resolved _ => u :: attemptedList transfer rest
    | .netError => [u]

/-- Boolean membership of an identifier in a list of identifiers. -/
def idMem (i : Nat) : List Nat → Bool
  | [] => false
  | j :: rest => i == j || idMem i rest

theorem idMem_iff_mem (i : Nat) : ∀ l : List Nat, idMem i l = true ↔ i ∈ l := by
  intro l
  induction l with
  | nil => simp [idMem]
  | cons j rest ih => simp [idMem, ih]

theorem drainLoop_attempted (transfer : Upload → FetchResult) :
    ∀ pending store : List Upload,
      (drainLoop transfer store pending).attempted = attemptedList transfer pending := by
  intro pending
  induction pending with
  | nil => intro store; rfl
  | cons v rest ih =>
    intro store
    cases htr : transfer v with
    | resolved r => simp [drainLoop, attemptedList, htr, ih]
    | netError => simp [drainLoop, attemptedList, htr]

theorem drainLoop_store (transfer : Upload → FetchResult) :
    ∀ pending store : List Upload,
      (drainLoop transfer store pending).store
        = store.filter (fun v => !(idMem v.id (deliveredIds transfer pending))) := by
  intro pending
  induction pending with
  | nil =>
    intro store
    simp [drainLoop, deliveredIds, idMem]
  | cons v rest ih =>
    intro store
    cases htr : transfer v with
    | netError => simp [drainLoop, deliveredIds, htr, idMem]
    | resolved r =>
      cases hok : r.ok with
      | false => simp [drainLoop, deliveredIds, htr, hok, ih]
      | true =>
        have hpred : (fun w : Upload => !(idMem w.id (v.id :: deliveredIds transfer rest)))
            = fun w => (!(idMem w.id (deliveredIds transfer rest))) && (!(w.id == v.id)) := by
          funext w
          cases h1 : (w.id == v.id) <;> cases h2 : idMem w.id (deliveredIds transfer rest) <;>
            simp [idMem, h1, h2]
        simp only [drainLoop, htr, hok, if_true, ih, removePendingUpload, deliveredIds]
        rw [hpred, List.filter_filter]

theorem deliveredIds_subset_ids (transfer : Upload → FetchResult) :
    ∀ l : List Upload, ∀ i : Nat,
      i ∈ deliveredIds transfer l → i ∈ l.map (fun u => u.id) := by
  intro l
  induction l with
  | nil => intro i h; simp [deliveredIds] at h
  | cons v rest ih =>
    intro i h
    cases htr : transfer v with
    | netError => simp [deliveredIds, htr] at h
    | resolved r =>
      cases hok : r.ok with
      | false =>
        simp [deliveredIds, htr, hok] at h
        simp [ih i h]
      | true =>
        simp [deliveredIds, htr, hok] at h
        rcases h with h | h
        · simp [h]
        · simp [ih i h]

theorem idMem_deliveredIds_iff (transfer : Upload → FetchResult) :
    ∀ l : List Upload, (l.map (fun u => u.id)).Nodup → ∀ u ∈ l,
      (idMem u.id (deliveredIds transfer l) = true ↔
        u ∈ attemptedList transfer l ∧ (transfer u).succeeded = true) := by
  intro l
  induction l with
  | nil => intro _ u hu; simp at hu
  | cons v rest ih =>
    intro hnd u hu
    rw [List.map_cons, List.nodup_cons] at hnd
    have hvm : v.id ∉ rest.map (fun w => w.id) := hnd.1
    have hnd2 : (rest.map (fun w => w.id)).Nodup := hnd.2
    rcases List.mem_cons.mp hu with heq | hmem
    · subst heq
      cases htr : transfer u with
      | netError =>
        simp [deliveredIds, attemptedList, htr, idMem, FetchResult.succeeded]
      | resolved r =>
        cases hok : r.ok with
        | true =>
          simp [deliveredIds, attemptedList, htr, hok, idMem, FetchResult.succeeded]
        | false =>
          have hnot : idMem u.id (deliveredIds transfer rest) = false := by
            cases hm : idMem u.id (deliveredIds transfer rest) with
            | false => rfl
            | true =>
              exact absurd (deliveredIds_subset_ids transfer rest u.id
                ((idMem_iff_mem u.id (deliveredIds transfer rest)).mp hm)) hvm
          simp [deliveredIds, attemptedList, htr, hok, hnot, FetchResult.succeeded]
    · have hid : u.id ≠ v.id := by
        intro he
        exact hvm (by rw [← he]; exact List.mem_map_of_mem (fun w => w.id) hmem)
      have hne : u ≠ v := fun he => hid (by rw [he])
      cases htr : transfer v with
      | netError =>
        have : u ∉ attemptedList transfer (v :: rest) := by
          simp [attemptedList, htr, hne]
        simp [deliveredIds, attemptedList, htr, idMem, hne]
      | resolved r =>
        cases hok : r.ok with
        | true =>
          have hbeq : (u.id == v.id) = false := by
            simpa using hid
          simp [deliveredIds, attemptedList, htr, hok, idMem, hbeq, hne,
            ih hnd2 u hmem]
        | false =>
          simp [deliveredIds, attemptedList, htr, hok, hne, ih hnd2 u hmem]

/-- C2: during one sync-queue drain, a pending upload record is removed from
the durable store if and only if the transfer attempt for that record
returned success (the POST resolved with an ok response); in particular no
record is ever removed without a confirmed successful transfer.  Record
identifiers are unique, as IndexedDB keys are. -/
theorem C2_upload_removed_iff_success (transfer : Upload → FetchResult) (store : List Upload)
    (hnd : (store.map (fun u => u.id)).Nodup) (u : Upload) (hu : u ∈ store) :
    (u ∉ (uploadPendingVideos transfer store).store ↔
      u ∈ (uploadPendingVideos transfer store).attempted
      ∧ (transfer u).succeeded = true) := by
  unfold uploadPendingVideos
  rw [drainLoop_store, drainLoop_attempted]
  have hleft :
      (u ∉ store.filter (fun v => !(idMem v.id (deliveredIds transfer store)))) ↔
        idMem u.id (deliveredIds transfer store) = true := by
    simp [List.mem_filter, hu]
  rw [hleft]
  exact idMem_deliveredIds_iff transfer store hnd u hu

/-- Concrete upload records for the queue witnesses. -/
def upl1 : Upload := ⟨1, "clip-a"⟩

/-- Second concrete upload record. -/
def upl2 : Upload := ⟨2, "clip-b"⟩

/-- Third concrete upload record. -/
def upl3 : Upload := ⟨3, "clip-c"⟩

/-- A three-record durable store. -/
def store3 : List Upload := [upl1, upl2, upl3]

/-- A server-side error response: the POST resolves but is not ok. -/
def resp500 : Response := ⟨500, "Internal Server Error", ""⟩

/-- A transfer environment in which exactly the second record's POST
resolves with a non-ok response and every other POST succeeds. -/
def transferFailsSecond : Upload → FetchResult :=
  fun u => if u.id == 2 then .resolved resp500 else .resolved pageResp

/-- C2 witness: the removal-iff-success theorem at the three-record store
whose second record fails with an HTTP 500. -/
theorem C2_upload_removed_iff_success_witness :
    ((store3.map (fun u => u.id)).Nodup ∧ upl2 ∈ store3)
    ∧ (upl2 ∉ (uploadPendingVideos transferFailsSecond store3).store ↔
        upl2 ∈ (uploadPendingVideos transferFailsSecond store3).attempted
        ∧ (transferFailsSecond upl2).succeeded = true) :=
  ⟨⟨by decide, by decide⟩,
   C2_upload_removed_iff_success transferFailsSecond store3 (by decide) upl2 (by decide)⟩

/-- A transfer environment in which the first record's POST rejects with a
network error and every other POST succeeds. -/
def transferNetFailFirst : Upload → FetchResult :=
  fun u => if u.id == 1 then .netError else .resolved pageResp

/-- C3 counterexample: two pending records of which only the first fails —
with a network-level failure, the thrown error aborts the whole pass, so
both records remain (not exactly one) and the second record is never
attempted, refuting that a failure partway through the batch does not
prevent delivery of the other records. -/
theorem C3_counterexample :
    transferNetFailFirst upl1 = FetchResult.netError
    ∧ transferNetFailFirst upl2 = FetchResult.resolved pageResp
    ∧ pageResp.ok = true
    ∧ (uploadPendingVideos transferNetFailFirst [upl1, upl2]).store = [upl1, upl2]
    ∧ upl2 ∉ (uploadPendingVideos transferNetFailFirst [upl1, upl2]).attempted := by
  refine ⟨rfl, rfl, rfl, rfl, by decide⟩

theorem attemptedList_eq_self (transfer : Upload → FetchResult) :
    ∀ l : List Upload, (∀ v ∈ l, transfer v ≠ FetchResult.netError) →
      attemptedList transfer l = l := by
  intro l
  induction l with
  | nil => intro _; rfl
  | cons v rest ih =>
    intro h
    cases htr : transfer v with
    | netError => exact absurd htr (h v (by simp))
    | resolved r =>
      simp [attemptedList, htr, ih (fun w hw => h w (by simp [hw]))]

theorem deliveredIds_of_single_httpFailure (transfer : Upload → FetchResult) (u : Upload) :
    ∀ l : List Upload, (∀ v ∈ l, v ≠ u → (transfer v).succeeded = true) →
      (transfer u).httpFailure = true →
      deliveredIds transfer l = (l.filter (fun v => !(v == u))).map (fun v => v.id) := by
  intro l
  induction l with
  | nil => intro _ _; rfl
  | cons v rest ih =>
    intro hothers hfail
    have ihr := ih (fun w hw hne => hothers w (by simp [hw]) hne) hfail
    by_cases hvu : v = u
    · subst hvu
      cases htr : transfer v with
      | netError => rw [htr] at hfail; simp [FetchResult.httpFailure] at hfail
      | resolved r =>
        have hok : r.ok = false := by
          rw [htr] at hfail
          simpa [FetchResult.httpFailure] using hfail
        simp [deliveredIds, htr, hok, ihr]
    · have hsucc := hothers v (by simp) hvu
      cases htr : transfer v with
      | netError => rw [htr] at hsucc; simp [FetchResult.succeeded] at hsucc
      | resolved r =>
        have hok : r.ok = true := by
          rw [htr] at hsucc
          simpa [FetchResult.succeeded] using hsucc
        have hbeq : (v == u) = false := by simpa using hvu
        simp [deliveredIds, htr, hok, hbeq, ihr]

theorem filter_beq_eq_singleton (u : Upload) :
    ∀ l : List Upload, (l.map (fun v => v.id)).Nodup → u ∈ l →
      l.filter (fun v => v == u) = [u] := by
  intro l
  induction l with
  | nil => intro _ hu; simp at hu
  | cons v rest ih =>
    intro hnd hu
    rw [List.map_cons, List.nodup_cons] at hnd
    have hvm : v.id ∉ rest.map (fun w => w.id) := hnd.1
    have hnd2 : (rest.map (fun w => w.id)).Nodup := hnd.2
    by_cases hvu : v = u
    · subst hvu
      have hrest : rest.filter (fun w => w == v) = [] := by
        rw [List.filter_eq_nil_iff]
        intro w hw hbeq
        have hwv : w = v := by simpa using hbeq
        exact hvm (by rw [← hwv]; exact List.mem_map_of_mem (fun x => x.id) hw)
      simp [List.filter_cons, hrest]
    · have hu2 : u ∈ rest := by
        rcases List.mem_cons.mp hu with h | h
        · exact absurd h.symm hvu
        · exact h
      have hbeq : (v == u) = false := by simpa using hvu
      simp [List.filter_cons, hbeq, ih hnd2 hu2]

/-- C3 (amended): when the Kth record's failure is a resolved-but-non-ok
HTTP response (and every other record's transfer succeeds), every pending
record is attempted sequentially and exactly one record — the Kth — remains
after the pass.  (The counterexample shows the claim fails when the Kth
failure is a rejected fetch: the thrown error ends the pass, leaving the
Kth through last records in the store with the later ones unattempted.) -/
theorem C3_drain_amended (transfer : Upload → FetchResult) (store : List Upload) (u : Upload)
    (hnd : (store.map (fun v => v.id)).Nodup) (hu : u ∈ store)
    (hothers : ∀ v ∈ store, v ≠ u → (transfer v).succeeded = true)
    (hfail : (transfer u).httpFailure = true) :
    (uploadPendingVideos transfer store).attempted = store
    ∧ (uploadPendingVideos transfer store).store = [u] := by
  have hnonet : ∀ v ∈ store, transfer v ≠ FetchResult.netError := by
    intro v hv hne
    by_cases hvu : v = u
    · subst hvu
      rw [hne] at hfail
      simp [FetchResult.httpFailure] at hfail
    · have := hothers v hv hvu
      rw [hne] at this
      simp [FetchResult.succeeded] at this
  constructor
  · rw [uploadPendingVideos, drainLoop_attempted]
    exact attemptedList_eq_self transfer store hnonet
  · rw [uploadPendingVideos, drainLoop_store,
      deliveredIds_of_single_httpFailure transfer u store hothers hfail]
    have hcongr : store.filter
        (fun v => !(idMem v.id ((store.filter (fun w => !(w == u))).map (fun w => w.id))))
        = store.filter (fun v => v == u) := by
      apply List.filter_congr
      intro v hv
      by_cases hvu : v = u
      · have hnot : idMem v.id ((store.filter (fun w => !(w == u))).map (fun w => w.id))
            = false := by
          cases hm : idMem v.id ((store.filter (fun w => !(w == u))).map (fun w => w.id)) with
          | false => rfl
          | true =>
            exfalso
            have hin := (idMem_iff_mem v.id _).mp hm
            obtain ⟨w, hwmem, hwid⟩ := List.mem_map.mp hin
            have hwstore := (List.mem_filter.mp hwmem).1
            have hwne : w ≠ u := by
              simpa using (List.mem_filter.mp hwmem).2
            exact hwne ((List.inj_on_of_nodup_map hnd hwstore hv hwid).trans hvu)
        have hbeq : (v == u) = true := by simpa using hvu
        simp [hnot, hbeq]
      · have hbeq : (v == u) = false := by simpa using hvu
        have hmem : idMem v.id ((store.filter (fun w => !(w == u))).map (fun w => w.id))
            = true :=
          (idMem_iff_mem v.id _).mpr
            (List.mem_map.mpr ⟨v, List.mem_filter.mpr ⟨hv, by simpa using hvu⟩, rfl⟩)
        simp [hmem, hbeq]
    rw [hcongr]
    exact filter_beq_eq_singleton u store hnd hu

/-- C3 witness: the amended drain theorem at the three-record store whose
second record fails with an HTTP 500 while the others succeed: all three
records are attempted and exactly the second remains. -/
theorem C3_drain_amended_witness :
    ((store3.map (fun v => v.id)).Nodup ∧ upl2 ∈ store3
     ∧ (∀ v ∈ store3, v ≠ upl2 → (transferFailsSecond v).succeeded = true)
     ∧ (transferFailsSecond upl2).httpFailure = true)
    ∧ ((uploadPendingVideos transferFailsSecond store3).attempted = store3
       ∧ (uploadPendingVideos transferFailsSecond store3).store = [upl2]) :=
  ⟨⟨by decide, by decide, by decide, by decide⟩,
   C3_drain_amended transferFailsSecond store3 upl2 (by decide) (by decide)
     (by decide) (by decide)⟩

end SW
